import Mathlib

/-!
Shallow embedding of the multi-tenant record/relation graph store of
`app.py` (Flask + SQLAlchemy).  The persistent store (tables `company`,
`record`, `record_relation`) is modelled as lists kept in insertion order
together with the autoincrement counters for the integer primary keys.
Each route handler that touches the core data model is embedded as a pure
function from the store (plus the resolved caller context and the current
time) to an outcome and the updated store.
-/

set_option autoImplicit false

namespace VIP

/-- Row of table `record` (class `Record` in `app.py`): a node of the graph,
owned by exactly one company. -/
structure Record where
  id : Nat
  company_id : Nat
  name : String
  description : String
  group : String
  created_at : Nat
  deriving Repr, DecidableEq

/-- Row of table `record_relation` (class `RecordRelation` in `app.py`):
an undirected relation stored as the ordered pair `(a_id, b_id)`. -/
structure RecordRelation where
  id : Nat
  a_id : Nat
  b_id : Nat
  company_id : Nat
  created_at : Nat
  deriving Repr, DecidableEq

/-- Row of table `company` (class `Company` in `app.py`): a tenant. -/
structure Company where
  id : Nat
  name : String
  street : String
  house_number : String
  postal_code : String
  city : String
  created_at : Nat
  deriving Repr, DecidableEq

/-- The persistent store: the three tables in insertion order, plus the
autoincrement counters handing out the next integer primary key. -/
structure DB where
  companies : List Company
  records : List Record
  relations : List RecordRelation
  nextCompanyId : Nat
  nextRecordId : Nat
  nextRelationId : Nat
  deriving Repr, DecidableEq

/-- A freshly created database: empty tables, ids starting at 1. -/
def DB.empty : DB := ⟨[], [], [], 1, 1, 1⟩

/-- The resolved authorization context of a caller (`current_user` in
`app.py`): the `is_superadmin` flag and the optional `company_id`. -/
structure Caller where
  is_superadmin : Bool
  company_id : Option Nat
  deriving Repr, DecidableEq

/-- The tenant a caller acts as for mutating operations.  Embeds the guard
`if user.is_superadmin or not user.company_id` of `app.py`: the caller acts
as tenant `cid` exactly when it is not a superadmin and its `company_id` is
truthy (present and nonzero, matching Python truthiness of `None`/`0`). -/
def Caller.actingTenant (u : Caller) : Option Nat :=
  if u.is_superadmin then none
  else
    match u.company_id with
    | none => none
    | some 0 => none
    | some cid => some cid

/-- Python's `str.strip()` with no argument: removes surrounding
whitespace.  Implemented over the character list so that it evaluates by
kernel reduction. -/
def pyStrip (s : String) : String :=
  ⟨((s.data.dropWhile Char.isWhitespace).reverse.dropWhile Char.isWhitespace).reverse⟩

/-- `normalized_pair` from `app.py`:
`(id1, id2) if id1 < id2 else (id2, id1)`. -/
def normalized_pair (id1 id2 : Nat) : Nat × Nat :=
  if id1 < id2 then (id1, id2) else (id2, id1)

/-- Outcome of the `/relations/create` handler, one constructor per flash
message / exit path. -/
inductive RelCreateOutcome where
  | selfRelation
  | notTenantUser
  | invalidEndpoints
  | alreadyExists
  | created
  deriving Repr, DecidableEq

/-- Outcome of the `/records/create` handler. -/
inductive RecordCreateOutcome where
  | validationError
  | notTenantUser
  | created (id : Nat)
  deriving Repr, DecidableEq

/-- Outcome of the `/relations/delete` handler. -/
inductive RelDeleteOutcome where
  | notTenantUser
  | deleted
  | notFound
  deriving Repr, DecidableEq

/-- Outcome of the `/admin/company/create` handler. -/
inductive CompanyCreateOutcome where
  | notSuperadmin
  | validationError
  | created (id : Nat)
  deriving Repr, DecidableEq

/-- The endpoint-validation count of `create_relation` in `app.py`:
`db.query(Record).filter(Record.company_id == cid, Record.id.in_([a_id, b_id])).count()`. -/
def endpointCount (db : DB) (cid a_id b_id : Nat) : Nat :=
  (db.records.filter fun r => r.company_id == cid && (r.id == a_id || r.id == b_id)).length

/-- The duplicate lookup of `create_relation` in `app.py`:
`db.query(RecordRelation).filter_by(a_id=a, b_id=b, company_id=cid).first()`
is not `None`. -/
def relationExists (db : DB) (a b cid : Nat) : Bool :=
  db.relations.any fun rel => rel.a_id == a && rel.b_id == b && rel.company_id == cid

/-- The `/records/create` handler `create_record` of `app.py`: trims the
fields, rejects an empty name, rejects callers that are not tenant users,
otherwise inserts a new `Record` with the current timestamp. -/
def create_record (db : DB) (u : Caller) (now : Nat)
    (name description group : String) : RecordCreateOutcome × DB :=
  if pyStrip name = "" then (.validationError, db)
  else
    match u.actingTenant with
    | none => (.notTenantUser, db)
    | some cid =>
        (.created db.nextRecordId,
         { db with
             records := db.records ++
               [⟨db.nextRecordId, cid, pyStrip name, pyStrip description, pyStrip group, now⟩],
             nextRecordId := db.nextRecordId + 1 })

/-- The `/relations/create` handler `create_relation` of `app.py`:
self-check first, then the tenant-user guard, then the endpoint-count
validation, then the canonical-pair duplicate lookup, then the insert. -/
def create_relation (db : DB) (u : Caller) (now a_id b_id : Nat) :
    RelCreateOutcome × DB :=
  if a_id = b_id then (.selfRelation, db)
  else
    match u.actingTenant with
    | none => (.notTenantUser, db)
    | some cid =>
        if endpointCount db cid a_id b_id ≠ 2 then (.invalidEndpoints, db)
        else if relationExists db (normalized_pair a_id b_id).1
            (normalized_pair a_id b_id).2 cid then
          (.alreadyExists, db)
        else
          (.created,
           { db with
               relations := db.relations ++
                 [⟨db.nextRelationId, (normalized_pair a_id b_id).1,
                   (normalized_pair a_id b_id).2, cid, now⟩],
               nextRelationId := db.nextRelationId + 1 })

/-- The `/relations/delete` handler `delete_relation` of `app.py`: deletes
the first relation matching both the given id and the caller's tenant;
otherwise reports not-found. -/
def delete_relation (db : DB) (u : Caller) (rel_id : Nat) :
    RelDeleteOutcome × DB :=
  match u.actingTenant with
  | none => (.notTenantUser, db)
  | some cid =>
      match db.relations.find? (fun rel => rel.id == rel_id && rel.company_id == cid) with
      | none => (.notFound, db)
      | some _ =>
          (.deleted,
           { db with
               relations := db.relations.eraseP
                 (fun rel => rel.id == rel_id && rel.company_id == cid) })

/-- The `/admin/company/create` handler `create_company` of `app.py`:
superadmin-gated, requires a nonempty trimmed name, inserts the company. -/
def create_company (db : DB) (u : Caller) (now : Nat)
    (name street house_number postal_code city : String) :
    CompanyCreateOutcome × DB :=
  if !u.is_superadmin then (.notSuperadmin, db)
  else if pyStrip name = "" then (.validationError, db)
  else
    (.created db.nextCompanyId,
     { db with
         companies := db.companies ++
           [⟨db.nextCompanyId, pyStrip name, pyStrip street, pyStrip house_number,
             pyStrip postal_code, pyStrip city, now⟩],
         nextCompanyId := db.nextCompanyId + 1 })

/-- A node as serialized by `/api/graph`. -/
structure NodeOut where
  id : Nat
  name : String
  description : String
  group : String
  deriving Repr, DecidableEq

/-- An edge as serialized by `/api/graph`. -/
structure EdgeOut where
  a : Nat
  b : Nat
  deriving Repr, DecidableEq

/-- The JSON payload of `/api/graph`. -/
structure GraphSnapshot where
  nodes : List NodeOut
  edges : List EdgeOut
  company_id : Option Nat
  ts : Nat
  deriving Repr, DecidableEq

/-- Result of `/api/graph`: the 400 response or the JSON payload. -/
inductive GraphResult where
  | badRequest
  | ok (g : GraphSnapshot)
  deriving Repr, DecidableEq

/-- The projection of the store for one company id, as built by `api_graph`
in `app.py` (the two filtered queries carry no ORDER BY, so rows appear in
insertion order).  `cid = none` models a NULL company filter, which matches
no row of the non-nullable `company_id` columns. -/
def graphFor (db : DB) (cid : Option Nat) (now : Nat) : GraphSnapshot :=
  { nodes := (db.records.filter fun r => some r.company_id == cid).map
      fun r => ⟨r.id, r.name, r.description, r.group⟩
    edges := (db.relations.filter fun rel => some rel.company_id == cid).map
      fun rel => ⟨rel.a_id, rel.b_id⟩
    company_id := cid
    ts := now }

/-- The `/api/graph` handler `api_graph` of `app.py`: a non-superadmin's
requested company id is overridden by its own; a superadmin must supply a
truthy `company_id` query parameter or gets a 400. -/
def api_graph (db : DB) (u : Caller) (requested : Option Nat) (now : Nat) :
    GraphResult :=
  if !u.is_superadmin then .ok (graphFor db u.company_id now)
  else
    match requested with
    | none => .badRequest
    | some 0 => .badRequest
    | some cid => .ok (graphFor db (some cid) now)

/-! ## Derived predicates used by the claims -/

/-- Number of stored relations carrying exactly the ordered pair `(a, b)`,
irrespective of tenant (this is the column pair covered by the
`uq_relation_pair` unique constraint). -/
def pairCount (db : DB) (a b : Nat) : Nat :=
  (db.relations.filter fun rel => rel.a_id == a && rel.b_id == b).length

/-- Whether some stored record with id `i` is owned by company `cid`. -/
def ownsRecord (db : DB) (cid i : Nat) : Bool :=
  db.records.any fun r => r.company_id == cid && r.id == i

/-- The canonicalization invariant: every stored relation has `a_id < b_id`. -/
def edgeCanonical (db : DB) : Prop :=
  ∀ rel ∈ db.relations, rel.a_id < rel.b_id

/-- Statement that every operation applied to `db` yields a store still
satisfying the canonicalization invariant, and that every graph snapshot
serialized from `db` has `a < b` on each edge. -/
def canonicalPreserved (db : DB) : Prop :=
  (∀ u now name description group,
     edgeCanonical (create_record db u now name description group).2) ∧
  (∀ u now x y, edgeCanonical (create_relation db u now x y).2) ∧
  (∀ u rid, edgeCanonical (delete_relation db u rid).2) ∧
  (∀ u now name street house_number postal_code city,
     edgeCanonical (create_company db u now name street house_number postal_code city).2) ∧
  (∀ u req now g, api_graph db u req now = .ok g → ∀ e ∈ g.edges, e.a < e.b)

/-! ## Concrete stores used as witnesses and in the end-to-end scenario -/

/-- Fixture: one company (id 1) owning two records (ids 1 and 2). -/
def dbTwoRecords : DB :=
  { companies := [⟨1, "T", "", "", "", "", 0⟩]
    records := [⟨1, 1, "Alpha", "", "", 0⟩, ⟨2, 1, "Beta", "", "", 0⟩]
    relations := []
    nextCompanyId := 2
    nextRecordId := 3
    nextRelationId := 1 }

/-- Fixture: `dbTwoRecords` together with the canonical relation `(1, 2)`
(id 1) owned by company 1. -/
def dbOneRelation : DB :=
  { companies := [⟨1, "T", "", "", "", "", 0⟩]
    records := [⟨1, 1, "Alpha", "", "", 0⟩, ⟨2, 1, "Beta", "", "", 0⟩]
    relations := [⟨1, 1, 2, 1, 0⟩]
    nextCompanyId := 2
    nextRecordId := 3
    nextRelationId := 2 }

/-- Scenario step 1: a superadmin creates company "T" (it gets id 1). -/
def dbScenCompany : DB :=
  (create_company DB.empty ⟨true, none⟩ 100 "T" "" "" "" "").2

/-- Scenario step 2: a company-1 user creates record "Alpha" (id 1). -/
def dbScenAlpha : DB :=
  (create_record dbScenCompany ⟨false, some 1⟩ 101 "Alpha" "" "").2

/-- Scenario step 3: the user creates record "Beta" (id 2). -/
def dbScenBeta : DB :=
  (create_record dbScenAlpha ⟨false, some 1⟩ 102 "Beta" "" "").2

/-- Scenario step 4: the user relates records 1 and 2. -/
def scenRelation : RelCreateOutcome × DB :=
  create_relation dbScenBeta ⟨false, some 1⟩ 103 1 2

/-- Scenario step 5: the user fetches the graph of company 1. -/
def scenSnapshot : GraphResult :=
  api_graph scenRelation.2 ⟨false, some 1⟩ (some 1) 104

/-! ## Helper lemmas -/

theorem normalized_pair_comm (x y : Nat) :
    normalized_pair x y = normalized_pair y x := by
  unfold normalized_pair
  rcases Nat.lt_trichotomy x y with h | h | h
  · rw [if_pos h, if_neg (by omega)]
  · subst h
    simp
  · rw [if_neg (by omega), if_pos h]

theorem normalized_pair_fst (x y : Nat) : (normalized_pair x y).1 = min x y := by
  unfold normalized_pair
  split <;> simp <;> omega

theorem normalized_pair_snd (x y : Nat) : (normalized_pair x y).2 = max x y := by
  unfold normalized_pair
  split <;> simp <;> omega

theorem normalized_pair_lt (x y : Nat) (h : x ≠ y) :
    (normalized_pair x y).1 < (normalized_pair x y).2 := by
  unfold normalized_pair
  split <;> simp <;> omega

theorem endpointCount_comm (db : DB) (cid x y : Nat) :
    endpointCount db cid x y = endpointCount db cid y x := by
  unfold endpointCount
  congr 1
  apply List.filter_congr
  intro r _
  rw [Bool.or_comm]

theorem create_relation_comm (db : DB) (u : Caller) (now x y : Nat) :
    create_relation db u now x y = create_relation db u now y x := by
  by_cases hxy : x = y
  · subst hxy
    rfl
  · unfold create_relation
    rw [if_neg hxy, if_neg (Ne.symm hxy)]
    cases u.actingTenant with
    | none => rfl
    | some cid =>
        dsimp only
        rw [endpointCount_comm db cid x y, normalized_pair_comm x y]

/-! ## Claims -/

/-- Claim C3: for all id pairs `(x, y)` with `x ≠ y`, `normalized_pair` is
symmetric in its arguments, its first component is the smaller identity
(and its second the larger); it is a pure total Lean function. -/
theorem c3_normalize (x y : Nat) (_hxy : x ≠ y) :
    normalized_pair x y = normalized_pair y x ∧
    (normalized_pair x y).1 = min x y ∧
    (normalized_pair x y).2 = max x y :=
  ⟨normalized_pair_comm x y, normalized_pair_fst x y, normalized_pair_snd x y⟩

theorem c3_normalize_witness :
    (3 : Nat) ≠ 7 ∧
    (normalized_pair 3 7 = normalized_pair 7 3 ∧
     (normalized_pair 3 7).1 = min 3 7 ∧ (normalized_pair 3 7).2 = max 3 7) :=
  ⟨by decide, c3_normalize 3 7 (by decide)⟩

/-- Claim C7: for every caller and every id `x`, `create_relation` on the
pair `(x, x)` fails with the self-relation error and returns the store
unchanged; the self-check runs before the tenant guard and the endpoint
validation. -/
theorem c7_self_relation (db : DB) (u : Caller) (now x : Nat) :
    create_relation db u now x x = (.selfRelation, db) := by
  unfold create_relation
  rw [if_pos rfl]

/-- Claim C2: if every stored relation is canonical (`a_id < b_id`), then
the store produced by any of the operations is canonical again, and every
edge serialized by the graph query satisfies `a < b`. -/
theorem c2_canonical_invariant (db : DB) (hdb : edgeCanonical db) :
    canonicalPreserved db := by
  have hGraph : ∀ (cid : Option Nat) (now : Nat),
      ∀ e ∈ (graphFor db cid now).edges, e.a < e.b := by
    intro cid now e he
    simp only [graphFor, List.mem_map, List.mem_filter] at he
    obtain ⟨rel, ⟨hmem, _⟩, rfl⟩ := he
    exact hdb rel hmem
  refine ⟨?_, ?_, ?_, ?_, ?_⟩
  · intro u now name description group
    unfold create_record
    split
    · exact hdb
    · cases u.actingTenant with
      | none => exact hdb
      | some cid => exact hdb
  · intro u now x y
    by_cases hxy : x = y
    · subst hxy
      unfold create_relation
      rw [if_pos rfl]
      exact hdb
    · unfold create_relation
      rw [if_neg hxy]
      cases u.actingTenant with
      | none => exact hdb
      | some cid =>
          dsimp only
          by_cases hc : endpointCount db cid x y ≠ 2
          · rw [if_pos hc]
            exact hdb
          · rw [if_neg hc]
            by_cases he : relationExists db (normalized_pair x y).1
                (normalized_pair x y).2 cid = true
            · rw [if_pos he]
              exact hdb
            · rw [if_neg he]
              intro rel hmem
              rcases List.mem_append.1 hmem with hold | hnew
              · exact hdb rel hold
              · rcases List.mem_singleton.1 hnew with rfl
                exact normalized_pair_lt x y hxy
  · intro u rid
    unfold delete_relation
    cases u.actingTenant with
    | none => exact hdb
    | some cid =>
        dsimp only
        cases hf : db.relations.find?
            (fun rel => rel.id == rid && rel.company_id == cid) with
        | none => exact hdb
        | some r =>
            intro rel hmem
            exact hdb rel ((List.eraseP_sublist db.relations).subset hmem)
  · intro u now name street house_number postal_code city
    unfold create_company
    split
    · exact hdb
    · split
      · exact hdb
      · exact hdb
  · intro u req now g hok
    unfold api_graph at hok
    split at hok
    · cases hok
      exact hGraph _ now
    · cases req with
      | none => cases hok
      | some cid =>
          cases cid with
          | zero => cases hok
          | succ c =>
              cases hok
              exact hGraph _ now

theorem c2_canonical_invariant_witness :
    edgeCanonical DB.empty ∧ canonicalPreserved DB.empty :=
  ⟨fun rel h => absurd h (List.not_mem_nil rel),
   c2_canonical_invariant DB.empty (fun rel h => absurd h (List.not_mem_nil rel))⟩

/-! ## Counting lemmas for the endpoint validation -/

theorem filter_or_length (l : List Record) (p q : Record → Bool)
    (hpq : ∀ r, ¬(p r = true ∧ q r = true)) :
    (l.filter fun r => p r || q r).length
      = (l.filter p).length + (l.filter q).length := by
  induction l with
  | nil => simp
  | cons r t ih =>
      cases hp : p r with
      | true =>
          have hq : q r = false := by
            cases hqv : q r
            · rfl
            · exact absurd ⟨hp, hqv⟩ (hpq r)
          simp [List.filter_cons, hp, hq, ih]
          omega
      | false =>
          cases hq : q r with
          | true =>
              simp [List.filter_cons, hp, hq, ih]
              omega
          | false => simp [List.filter_cons, hp, hq, ih]

theorem filter_single_id_length (l : List Record) (cid i : Nat)
    (hN : (l.map Record.id).Nodup) :
    (l.filter fun r => r.company_id == cid && r.id == i).length
      = if l.any (fun r => r.company_id == cid && r.id == i) then 1 else 0 := by
  induction l with
  | nil => simp
  | cons r t ih =>
      simp only [List.map_cons, List.nodup_cons] at hN
      obtain ⟨hid, hN'⟩ := hN
      cases hpr : (r.company_id == cid && r.id == i) with
      | true =>
          have hri : r.id = i := by
            simp only [Bool.and_eq_true, beq_iff_eq] at hpr
            exact hpr.2
          have htail : t.filter (fun r => r.company_id == cid && r.id == i) = [] := by
            rw [List.filter_eq_nil_iff]
            intro a ha
            simp only [Bool.and_eq_true, beq_iff_eq, not_and]
            intro _ haid
            exact hid (List.mem_map.2 ⟨a, ha, by rw [haid, hri]⟩)
          simp [List.filter_cons, List.any_cons, hpr, htail]
      | false => simp [List.filter_cons, List.any_cons, hpr, ih hN']

theorem endpointCount_split (db : DB) (cid x y : Nat) (hxy : x ≠ y)
    (hN : (db.records.map Record.id).Nodup) :
    endpointCount db cid x y
      = (if ownsRecord db cid x then 1 else 0)
        + (if ownsRecord db cid y then 1 else 0) := by
  unfold endpointCount ownsRecord
  have hsplit : (db.records.filter fun r =>
        r.company_id == cid && (r.id == x || r.id == y)).length
      = (db.records.filter fun r => r.company_id == cid && r.id == x).length
        + (db.records.filter fun r => r.company_id == cid && r.id == y).length := by
    rw [List.filter_congr (q := fun r =>
      (r.company_id == cid && r.id == x) || (r.company_id == cid && r.id == y))
      (fun r _ => Bool.and_or_distrib_left _ _ _)]
    apply filter_or_length
    intro r hr
    rcases hr with ⟨h1, h2⟩
    simp only [Bool.and_eq_true, beq_iff_eq] at h1 h2
    exact hxy (h1.2 ▸ h2.2)
  rw [hsplit, filter_single_id_length db.records cid x hN,
    filter_single_id_length db.records cid y hN]

/-- Claim C4: with a caller acting as tenant `cid` and distinct ids
`x ≠ y`, `create_relation` rejects with the invalid-endpoints error and
leaves the store unchanged whenever the endpoint count differs from 2;
and (for a store with unique record ids) that count equals 2 exactly when
both ids are records owned by `cid`, covering the missing-record and
foreign-tenant cases. -/
theorem c4_invalid_endpoints (db : DB) (u : Caller) (cid x y now : Nat)
    (hT : u.actingTenant = some cid) (hxy : x ≠ y)
    (hN : (db.records.map Record.id).Nodup) :
    (endpointCount db cid x y ≠ 2 →
       create_relation db u now x y = (.invalidEndpoints, db)) ∧
    (endpointCount db cid x y = 2 ↔
       ownsRecord db cid x = true ∧ ownsRecord db cid y = true) := by
  constructor
  · intro hc
    unfold create_relation
    rw [if_neg hxy, hT]
    dsimp only
    rw [if_pos hc]
  · rw [endpointCount_split db cid x y hxy hN]
    cases hx : ownsRecord db cid x <;> cases hy : ownsRecord db cid y <;> simp

theorem c4_invalid_endpoints_witness :
    (Caller.actingTenant ⟨false, some 1⟩ = some 1) ∧ (1 : Nat) ≠ 2 ∧
    ((dbTwoRecords.records.map Record.id).Nodup) ∧
    ((endpointCount dbTwoRecords 1 1 2 ≠ 2 →
        create_relation dbTwoRecords ⟨false, some 1⟩ 50 1 2
          = (.invalidEndpoints, dbTwoRecords)) ∧
     (endpointCount dbTwoRecords 1 1 2 = 2 ↔
        ownsRecord dbTwoRecords 1 1 = true ∧ ownsRecord dbTwoRecords 1 2 = true)) :=
  ⟨by decide, by decide, by decide,
   c4_invalid_endpoints dbTwoRecords ⟨false, some 1⟩ 1 1 2 50
     (by decide) (by decide) (by decide)⟩

theorem relationExists_eq_false_of_pairCount_zero (db : DB) (a b cid : Nat)
    (h : pairCount db a b = 0) : relationExists db a b cid = false := by
  unfold pairCount at h
  rw [List.length_eq_zero, List.filter_eq_nil_iff] at h
  unfold relationExists
  rw [List.any_eq_false]
  intro rel hmem hpred
  apply h rel hmem
  simp only [Bool.and_eq_true] at hpred ⊢
  tauto

theorem create_relation_success (db : DB) (u : Caller) (cid x y now : Nat)
    (hT : u.actingTenant = some cid) (hxy : x ≠ y)
    (hcnt : endpointCount db cid x y = 2)
    (hex : relationExists db (normalized_pair x y).1 (normalized_pair x y).2 cid
      = false) :
    create_relation db u now x y =
      (.created,
       { db with
           relations := db.relations ++
             [⟨db.nextRelationId, (normalized_pair x y).1,
               (normalized_pair x y).2, cid, now⟩],
           nextRelationId := db.nextRelationId + 1 }) := by
  unfold create_relation
  rw [if_neg hxy, hT]
  dsimp only
  rw [if_neg (by rw [hcnt]; exact fun hcon => hcon rfl),
    if_neg (by rw [hex]; exact Bool.false_ne_true)]

theorem create_relation_dup (db : DB) (u : Caller) (cid x y now : Nat)
    (hT : u.actingTenant = some cid) (hxy : x ≠ y)
    (hcnt : endpointCount db cid x y = 2)
    (hex : relationExists db (normalized_pair x y).1 (normalized_pair x y).2 cid
      = true) :
    create_relation db u now x y = (.alreadyExists, db) := by
  unfold create_relation
  rw [if_neg hxy, hT]
  dsimp only
  rw [if_neg (by rw [hcnt]; exact fun hcon => hcon rfl), if_pos hex]

/-- Claim C1: from a store holding no relation on the canonical pair of
distinct ids `x`, `y`, a caller acting as tenant `cid` whose endpoint
validation passes gets `created` on the first call and `alreadyExists` on
the second, the second call leaves the store of the first call unchanged,
exactly one relation on the pair is stored afterward, and swapping the
argument order produces the identical outcome and store at either step. -/
theorem c1_idempotent (db : DB) (u : Caller) (cid x y now1 now2 : Nat)
    (hT : u.actingTenant = some cid) (hxy : x ≠ y)
    (hcnt : endpointCount db cid x y = 2)
    (hfresh : pairCount db (normalized_pair x y).1 (normalized_pair x y).2 = 0) :
    ∃ db1 : DB,
      create_relation db u now1 x y = (.created, db1) ∧
      create_relation db1 u now2 x y = (.alreadyExists, db1) ∧
      pairCount db1 (normalized_pair x y).1 (normalized_pair x y).2 = 1 ∧
      create_relation db u now1 y x = create_relation db u now1 x y ∧
      create_relation db1 u now2 y x = create_relation db1 u now2 x y := by
  have hex0 : relationExists db (normalized_pair x y).1 (normalized_pair x y).2 cid
      = false :=
    relationExists_eq_false_of_pairCount_zero _ _ _ _ hfresh
  refine ⟨{ db with
      relations := db.relations ++
        [⟨db.nextRelationId, (normalized_pair x y).1,
          (normalized_pair x y).2, cid, now1⟩],
      nextRelationId := db.nextRelationId + 1 },
    create_relation_success db u cid x y now1 hT hxy hcnt hex0, ?_, ?_, ?_, ?_⟩
  · refine create_relation_dup _ u cid x y now2 hT hxy ?_ ?_
    · exact hcnt
    · show relationExists
        { db with
            relations := db.relations ++
              [⟨db.nextRelationId, (normalized_pair x y).1,
                (normalized_pair x y).2, cid, now1⟩],
            nextRelationId := db.nextRelationId + 1 }
        (normalized_pair x y).1 (normalized_pair x y).2 cid = true
      unfold relationExists
      rw [List.any_eq_true]
      refine ⟨⟨db.nextRelationId, (normalized_pair x y).1,
        (normalized_pair x y).2, cid, now1⟩, ?_, ?_⟩
      · exact List.mem_append_right _ (List.mem_singleton.2 rfl)
      · simp
  · unfold pairCount
    dsimp only
    rw [List.filter_append]
    have h0 : (db.relations.filter fun rel =>
        rel.a_id == (normalized_pair x y).1 &&
        rel.b_id == (normalized_pair x y).2) = [] := by
      rw [← List.length_eq_zero]
      exact hfresh
    rw [h0]
    simp
  · exact create_relation_comm db u now1 y x
  · exact create_relation_comm _ u now2 y x

theorem c1_idempotent_witness :
    (Caller.actingTenant ⟨false, some 1⟩ = some 1) ∧ (1 : Nat) ≠ 2 ∧
    endpointCount dbTwoRecords 1 1 2 = 2 ∧
    pairCount dbTwoRecords (normalized_pair 1 2).1 (normalized_pair 1 2).2 = 0 ∧
    (∃ db1 : DB,
      create_relation dbTwoRecords ⟨false, some 1⟩ 10 1 2 = (.created, db1) ∧
      create_relation db1 ⟨false, some 1⟩ 11 1 2 = (.alreadyExists, db1) ∧
      pairCount db1 (normalized_pair 1 2).1 (normalized_pair 1 2).2 = 1 ∧
      create_relation dbTwoRecords ⟨false, some 1⟩ 10 2 1
        = create_relation dbTwoRecords ⟨false, some 1⟩ 10 1 2 ∧
      create_relation db1 ⟨false, some 1⟩ 11 2 1
        = create_relation db1 ⟨false, some 1⟩ 11 1 2) :=
  ⟨by decide, by decide, by decide, by decide,
   c1_idempotent dbTwoRecords ⟨false, some 1⟩ 1 1 2 10 11
     (by decide) (by decide) (by decide) (by decide)⟩

theorem actingTenant_eq_none (u : Caller)
    (h : u.is_superadmin = true ∨ u.company_id = none) :
    u.actingTenant = none := by
  unfold Caller.actingTenant
  rcases h with h | h
  · rw [if_pos h]
  · rw [h]
    split <;> rfl

/-- Claim C10: a caller that is a superadmin or has no company id can
mutate nothing: record creation, relation creation and relation deletion
all leave the store unchanged, record and relation creation never report
success, and relation creation never reports `alreadyExists` either; a
superadmin may still read any (nonzero) tenant's graph. -/
theorem c10_superadmin_no_mutation (db : DB) (u : Caller)
    (now x y rid : Nat) (name description group : String)
    (h : u.is_superadmin = true ∨ u.company_id = none) :
    (create_record db u now name description group).2 = db ∧
    (∀ i, (create_record db u now name description group).1 ≠ .created i) ∧
    (create_relation db u now x y).2 = db ∧
    (create_relation db u now x y).1 ≠ .created ∧
    (create_relation db u now x y).1 ≠ .alreadyExists ∧
    delete_relation db u rid = (.notTenantUser, db) ∧
    (u.is_superadmin = true → ∀ cid : Nat, cid ≠ 0 →
       api_graph db u (some cid) now = .ok (graphFor db (some cid) now)) := by
  have hT := actingTenant_eq_none u h
  have hrec : ∀ P : RecordCreateOutcome × DB → Prop,
      P (.validationError, db) → P (.notTenantUser, db) →
      P (create_record db u now name description group) := by
    intro P h1 h2
    unfold create_record
    split
    · exact h1
    · rw [hT]
      exact h2
  have hrel : ∀ P : RelCreateOutcome × DB → Prop,
      P (.selfRelation, db) → P (.notTenantUser, db) →
      P (create_relation db u now x y) := by
    intro P h1 h2
    unfold create_relation
    split
    · exact h1
    · rw [hT]
      exact h2
  refine ⟨?_, ?_, ?_, ?_, ?_, ?_, ?_⟩
  · exact hrec (fun res => res.2 = db) rfl rfl
  · intro i
    exact hrec (fun res => res.1 ≠ .created i)
      (fun hc => RecordCreateOutcome.noConfusion hc)
      (fun hc => RecordCreateOutcome.noConfusion hc)
  · exact hrel (fun res => res.2 = db) rfl rfl
  · exact hrel (fun res => res.1 ≠ .created)
      (fun hc => RelCreateOutcome.noConfusion hc)
      (fun hc => RelCreateOutcome.noConfusion hc)
  · exact hrel (fun res => res.1 ≠ .alreadyExists)
      (fun hc => RelCreateOutcome.noConfusion hc)
      (fun hc => RelCreateOutcome.noConfusion hc)
  · unfold delete_relation
    rw [hT]
  · intro hsup cid hcid
    unfold api_graph
    rw [hsup]
    cases cid with
    | zero => exact absurd rfl hcid
    | succ c => rfl

theorem c10_superadmin_no_mutation_witness :
    ((true : Bool) = true ∨ (some 7 : Option Nat) = none) ∧
    ((create_record dbOneRelation ⟨true, some 7⟩ 60 "X" "" "").2 = dbOneRelation ∧
     (∀ i, (create_record dbOneRelation ⟨true, some 7⟩ 60 "X" "" "").1 ≠ .created i) ∧
     (create_relation dbOneRelation ⟨true, some 7⟩ 60 1 2).2 = dbOneRelation ∧
     (create_relation dbOneRelation ⟨true, some 7⟩ 60 1 2).1 ≠ .created ∧
     (create_relation dbOneRelation ⟨true, some 7⟩ 60 1 2).1 ≠ .alreadyExists ∧
     delete_relation dbOneRelation ⟨true, some 7⟩ 1 = (.notTenantUser, dbOneRelation) ∧
     ((true : Bool) = true → ∀ cid : Nat, cid ≠ 0 →
        api_graph dbOneRelation ⟨true, some 7⟩ (some cid) 60
          = .ok (graphFor dbOneRelation (some cid) 60))) :=
  ⟨Or.inl rfl,
   c10_superadmin_no_mutation dbOneRelation ⟨true, some 7⟩ 60 1 2 1 "X" "" ""
     (Or.inl rfl)⟩

/-- Claim C6: relation deletion succeeds only on a relation whose id
exists and whose tenant matches the caller's acting tenant; a relation
owned by another tenant yields `notFound` with the store unchanged (so the
relation still exists afterward) — the same observable outcome as a
wholly nonexistent relation id. -/
theorem c6_cross_tenant_delete (db : DB) (u : Caller) (tB rid : Nat)
    (hT : u.actingTenant = some tB)
    (hN : (db.relations.map RecordRelation.id).Nodup) :
    ((delete_relation db u rid).1 = .deleted →
       ∃ rel ∈ db.relations, rel.id = rid ∧ rel.company_id = tB) ∧
    (∀ rel ∈ db.relations, rel.id = rid → rel.company_id ≠ tB →
       delete_relation db u rid = (.notFound, db)) ∧
    ((∀ rel ∈ db.relations, rel.id ≠ rid) →
       delete_relation db u rid = (.notFound, db)) := by
  refine ⟨?_, ?_, ?_⟩
  · intro hdel
    unfold delete_relation at hdel
    rw [hT] at hdel
    dsimp only at hdel
    rcases hfind : db.relations.find?
        (fun rel => rel.id == rid && rel.company_id == tB) with _ | rel
    · rw [hfind] at hdel
      simp at hdel
    · have hmem := List.mem_of_find?_eq_some hfind
      have hpred := List.find?_some hfind
      simp only [Bool.and_eq_true, beq_iff_eq] at hpred
      exact ⟨rel, hmem, hpred.1, hpred.2⟩
  · intro rel hmem hid hcid
    unfold delete_relation
    rw [hT]
    dsimp only
    have hfind : db.relations.find?
        (fun r => r.id == rid && r.company_id == tB) = none := by
      rw [List.find?_eq_none]
      intro r hr hpred
      simp only [Bool.and_eq_true, beq_iff_eq] at hpred
      have hreq : r = rel :=
        List.inj_on_of_nodup_map hN hr hmem (by rw [hpred.1, hid])
      exact hcid (hreq ▸ hpred.2)
    rw [hfind]
  · intro hnone
    unfold delete_relation
    rw [hT]
    dsimp only
    have hfind : db.relations.find?
        (fun r => r.id == rid && r.company_id == tB) = none := by
      rw [List.find?_eq_none]
      intro r hr hpred
      simp only [Bool.and_eq_true, beq_iff_eq] at hpred
      exact hnone r hr hpred.1
    rw [hfind]

theorem c6_cross_tenant_delete_witness :
    (Caller.actingTenant ⟨false, some 2⟩ = some 2) ∧
    ((dbOneRelation.relations.map RecordRelation.id).Nodup) ∧
    (((delete_relation dbOneRelation ⟨false, some 2⟩ 1).1 = .deleted →
        ∃ rel ∈ dbOneRelation.relations, rel.id = 1 ∧ rel.company_id = 2) ∧
     (∀ rel ∈ dbOneRelation.relations, rel.id = 1 → rel.company_id ≠ 2 →
        delete_relation dbOneRelation ⟨false, some 2⟩ 1
          = (.notFound, dbOneRelation)) ∧
     ((∀ rel ∈ dbOneRelation.relations, rel.id ≠ 1) →
        delete_relation dbOneRelation ⟨false, some 2⟩ 1
          = (.notFound, dbOneRelation))) :=
  ⟨by decide, by decide,
   c6_cross_tenant_delete dbOneRelation ⟨false, some 2⟩ 2 1
     (by decide) (by decide)⟩

/-- Claim C5: a non-superadmin caller with company `A` receives the same
snapshot whatever tenant id it requests — always company `A`'s graph,
whose nodes are exactly `A`'s records and whose edges are exactly `A`'s
relations. -/
theorem c5_non_superadmin_scoping (db : DB) (u : Caller) (A : Nat)
    (B B' : Option Nat) (now : Nat)
    (hs : u.is_superadmin = false) (hc : u.company_id = some A) :
    api_graph db u B now = api_graph db u B' now ∧
    api_graph db u B now = .ok (graphFor db (some A) now) ∧
    (∀ n, n ∈ (graphFor db (some A) now).nodes ↔
       ∃ r ∈ db.records, r.company_id = A ∧
         n = NodeOut.mk r.id r.name r.description r.group) ∧
    (∀ e, e ∈ (graphFor db (some A) now).edges ↔
       ∃ rel ∈ db.relations, rel.company_id = A ∧
         e = EdgeOut.mk rel.a_id rel.b_id) := by
  have hapi : ∀ req : Option Nat,
      api_graph db u req now = .ok (graphFor db (some A) now) := by
    intro req
    unfold api_graph
    rw [hs, hc]
    rfl
  refine ⟨(hapi B).trans (hapi B').symm, hapi B, ?_, ?_⟩
  · intro n
    constructor
    · intro hn
      simp only [graphFor, List.mem_map, List.mem_filter, beq_iff_eq,
        Option.some_inj] at hn
      obtain ⟨r, ⟨hr, hcid⟩, rfl⟩ := hn
      exact ⟨r, hr, hcid, rfl⟩
    · rintro ⟨r, hr, hcid, rfl⟩
      simp only [graphFor, List.mem_map, List.mem_filter, beq_iff_eq,
        Option.some_inj]
      exact ⟨r, ⟨hr, hcid⟩, rfl⟩
  · intro e
    constructor
    · intro he
      simp only [graphFor, List.mem_map, List.mem_filter, beq_iff_eq,
        Option.some_inj] at he
      obtain ⟨rel, ⟨hrel, hcid⟩, rfl⟩ := he
      exact ⟨rel, hrel, hcid, rfl⟩
    · rintro ⟨rel, hrel, hcid, rfl⟩
      simp only [graphFor, List.mem_map, List.mem_filter, beq_iff_eq,
        Option.some_inj]
      exact ⟨rel, ⟨hrel, hcid⟩, rfl⟩

theorem c5_non_superadmin_scoping_witness :
    ((false : Bool) = false) ∧ ((some 1 : Option Nat) = some 1) ∧
    (api_graph dbOneRelation ⟨false, some 1⟩ (some 99) 104
       = api_graph dbOneRelation ⟨false, some 1⟩ none 104 ∧
     api_graph dbOneRelation ⟨false, some 1⟩ (some 99) 104
       = .ok (graphFor dbOneRelation (some 1) 104) ∧
     (∀ n, n ∈ (graphFor dbOneRelation (some 1) 104).nodes ↔
        ∃ r ∈ dbOneRelation.records, r.company_id = 1 ∧
          n = NodeOut.mk r.id r.name r.description r.group) ∧
     (∀ e, e ∈ (graphFor dbOneRelation (some 1) 104).edges ↔
        ∃ rel ∈ dbOneRelation.relations, rel.company_id = 1 ∧
          e = EdgeOut.mk rel.a_id rel.b_id)) :=
  ⟨rfl, rfl,
   c5_non_superadmin_scoping dbOneRelation ⟨false, some 1⟩ 1 (some 99) none 104
     rfl rfl⟩

/-- Claim C9: for a caller acting as tenant `cid`, record creation fails
with the validation error exactly when the name is empty after stripping
surrounding whitespace — persisting nothing in that case — and otherwise
appends exactly one new record owned by `cid`, carrying the stripped
fields and the current timestamp. -/
theorem c9_create_record (db : DB) (u : Caller) (cid now : Nat)
    (name description group : String)
    (hT : u.actingTenant = some cid) :
    (pyStrip name = "" →
       create_record db u now name description group = (.validationError, db)) ∧
    ((create_record db u now name description group).1 = .validationError ↔
       pyStrip name = "") ∧
    (pyStrip name ≠ "" →
       create_record db u now name description group =
         (.created db.nextRecordId,
          { db with
              records := db.records ++
                [⟨db.nextRecordId, cid, pyStrip name, pyStrip description,
                  pyStrip group, now⟩],
              nextRecordId := db.nextRecordId + 1 })) := by
  by_cases h : pyStrip name = ""
  · refine ⟨fun _ => ?_, ?_, fun hne => absurd h hne⟩
    · unfold create_record
      rw [if_pos h]
    · constructor
      · intro _
        exact h
      · intro _
        unfold create_record
        rw [if_pos h]
  · refine ⟨fun he => absurd he h, ?_, fun _ => ?_⟩
    · constructor
      · intro hv
        exfalso
        unfold create_record at hv
        rw [if_neg h, hT] at hv
        exact RecordCreateOutcome.noConfusion hv
      · intro he
        exact absurd he h
    · unfold create_record
      rw [if_neg h, hT]

theorem c9_create_record_witness :
    (Caller.actingTenant ⟨false, some 1⟩ = some 1) ∧
    ((pyStrip "  " = "" →
        create_record dbTwoRecords ⟨false, some 1⟩ 70 "  " "d" "g"
          = (.validationError, dbTwoRecords)) ∧
     ((create_record dbTwoRecords ⟨false, some 1⟩ 70 "  " "d" "g").1
        = .validationError ↔ pyStrip "  " = "") ∧
     (pyStrip "  " ≠ "" →
        create_record dbTwoRecords ⟨false, some 1⟩ 70 "  " "d" "g" =
          (.created dbTwoRecords.nextRecordId,
           { dbTwoRecords with
               records := dbTwoRecords.records ++
                 [⟨dbTwoRecords.nextRecordId, 1, pyStrip "  ", pyStrip "d",
                   pyStrip "g", 70⟩],
               nextRecordId := dbTwoRecords.nextRecordId + 1 }))) :=
  ⟨by decide,
   c9_create_record dbTwoRecords ⟨false, some 1⟩ 1 70 "  " "d" "g" (by decide)⟩

/-- Claim C8 (counterexample): running the end-to-end scenario concretely —
create company "T" (id 1), create records "Alpha" (id 1) then "Beta"
(id 2) under it, relate them, fetch the graph as the company user — the
relation is created and the snapshot lists the nodes in insertion order
(record 1 before record 2), so it is not the claimed snapshot with node 2
listed first. -/
theorem c8_counterexample :
    scenRelation.1 = .created ∧
    scenSnapshot = .ok ⟨[⟨1, "Alpha", "", ""⟩, ⟨2, "Beta", "", ""⟩],
      [⟨1, 2⟩], some 1, 104⟩ ∧
    scenSnapshot ≠ .ok ⟨[⟨2, "Beta", "", ""⟩, ⟨1, "Alpha", "", ""⟩],
      [⟨1, 2⟩], some 1, 104⟩ :=
  ⟨rfl, rfl, by decide⟩

/-- Claim C8 (amended): the end-to-end scenario returns `created` at every
step and the final snapshot is exactly company 1's graph with the nodes in
insertion order — "Alpha" (id 1) before "Beta" (id 2) — the single edge in
canonical order `(1, 2)`, and the company id and timestamp fields set. -/
theorem c8_scenario :
    (create_company DB.empty ⟨true, none⟩ 100 "T" "" "" "" "").1 = .created 1 ∧
    (create_record dbScenCompany ⟨false, some 1⟩ 101 "Alpha" "" "").1 = .created 1 ∧
    (create_record dbScenAlpha ⟨false, some 1⟩ 102 "Beta" "" "").1 = .created 2 ∧
    scenRelation.1 = .created ∧
    scenSnapshot = .ok ⟨[⟨1, "Alpha", "", ""⟩, ⟨2, "Beta", "", ""⟩],
      [⟨1, 2⟩], some 1, 104⟩ :=
  ⟨rfl, rfl, rfl, rfl, rfl⟩

end VIP
